import Mathlib

/-!
# Verification of the qbyteapi core (qbyte_headless.py / qbyte_utils.py)

Shallow embedding of the QByte generation engine, trial-log codec,
threshold statistics and analysis engine, together with theorems settling
the specification claims against the code.

Conventions of the embedding:
* Python `int` values are `ℤ` (or `ℕ` where the source guarantees
  non-negativity), Python `float` arithmetic is modelled over `ℝ`
  (parsed decimal literals over `ℚ`).
* Python strings are `List Char`; `str.split(sep)` is `pySplit`,
  the substring test `pat in s` is `pyIn`.
* Code that can raise an exception is modelled with `Option`
  (`none` = the call raises).
-/

namespace QbyteApi

/-! ## Python string primitives -/

/-- Python `s.split(sep)` for a one-character separator: splits on every
occurrence of the separator, keeping empty pieces; `"".split(sep) = [""]`. -/
def pySplit (sep : Char) : List Char → List (List Char)
  | [] => [[]]
  | c :: cs =>
    if c = sep then [] :: pySplit sep cs
    else
      match pySplit sep cs with
      | [] => [[c]]
      | w :: ws => (c :: w) :: ws

/-- Test whether the pattern is an initial segment of the string. -/
def leadMatch : List Char → List Char → Bool
  | [], _ => true
  | _ :: _, [] => false
  | p :: ps, c :: cs => p = c && leadMatch ps cs

/-- Python substring containment `pat in s`. -/
def pyIn (pat : List Char) : List Char → Bool
  | [] => leadMatch pat []
  | c :: cs => leadMatch pat (c :: cs) || pyIn pat cs

/-- The decimal digit characters. -/
def digitChars : List Char := ['0', '1', '2', '3', '4', '5', '6', '7', '8', '9']

/-- The character for one decimal digit. -/
def digitChar : ℕ → Char
  | 0 => '0' | 1 => '1' | 2 => '2' | 3 => '3' | 4 => '4'
  | 5 => '5' | 6 => '6' | 7 => '7' | 8 => '8' | 9 => '9'
  | _ => '*'

/-- Python `str(n)` for a non-negative integer: its decimal digits. -/
def natChars (n : ℕ) : List Char :=
  if n = 0 then ['0'] else ((Nat.digits 10 n).reverse.map digitChar)

/-- Python `sep.join(xs)` for `sep = ","`. -/
def joinComma : List (List Char) → List Char
  | [] => []
  | [f] => f
  | f :: fs => f ++ ',' :: joinComma fs

theorem digitChar_mem {d : ℕ} (h : d < 10) : digitChar d ∈ digitChars := by
  interval_cases d <;> decide

theorem natChars_ne_nil (n : ℕ) : natChars n ≠ [] := by
  unfold natChars
  split
  · simp
  · simp [Nat.digits_ne_nil_iff_ne_zero, *]

theorem mem_natChars {c : Char} {n : ℕ} (h : c ∈ natChars n) : c ∈ digitChars := by
  unfold natChars at h
  split at h
  · simp at h; subst h; decide
  · simp only [List.mem_map, List.mem_reverse] at h
    obtain ⟨d, hd, rfl⟩ := h
    exact digitChar_mem (Nat.digits_lt_base (by norm_num) hd)

theorem leadMatch_mem {pat s : List Char} (h : leadMatch pat s = true) :
    ∀ c ∈ pat, c ∈ s := by
  induction pat generalizing s with
  | nil => simp
  | cons p ps ih =>
    cases s with
    | nil => simp [leadMatch] at h
    | cons a as =>
      simp only [leadMatch, Bool.and_eq_true, decide_eq_true_eq] at h
      obtain ⟨rfl, h2⟩ := h
      intro c hc
      rcases List.mem_cons.mp hc with rfl | hc
      · exact List.mem_cons_self _ _
      · exact List.mem_cons_of_mem _ (ih h2 c hc)

theorem pyIn_mem {pat s : List Char} (h : pyIn pat s = true) :
    ∀ c ∈ pat, c ∈ s := by
  induction s with
  | nil => exact leadMatch_mem h
  | cons a as ih =>
    simp only [pyIn, Bool.or_eq_true] at h
    rcases h with h | h
    · exact leadMatch_mem h
    · exact fun c hc => List.mem_cons_of_mem _ (ih h c hc)

theorem pyIn_eq_false {pat s : List Char} {c : Char} (hc : c ∈ pat) (hs : c ∉ s) :
    pyIn pat s = false := by
  by_contra h
  exact hs (pyIn_mem (by simpa using h) c hc)

theorem pyIn_of_leadMatch {pat s : List Char} (h : leadMatch pat s = true) :
    pyIn pat s = true := by
  cases s with
  | nil => exact h
  | cons a as => simp [pyIn, h]

/-! ## Threshold Statistics
(`QbyteDataProcessor.calculate_statistics`, qbyte_utils.py lines 44–61;
the identical formulas appear in `QByteHeadless.__init__`,
qbyte_headless.py lines 55–58.) -/

/-- The action boundary `math.ceil((z*((8*w*0.25)**0.5))+(4*w))`. -/
noncomputable def actionNum (z w : ℝ) : ℤ :=
  ⌈z * Real.sqrt (8 * w * 0.25) + 4 * w⌉

/-- The parameters dict as consumed by `calculate_statistics`
(`params.get(key, default)`): each key may be absent. -/
structure StatParams where
  ColorZ : Option ℝ
  RotZ : Option ℝ
  NEDspeed : Option ℤ

/-- The action boundaries returned by `calculate_statistics`.  (The
`Pmod_*` binomial tail probabilities in the returned dict are not modelled:
no claim concerns them.) -/
structure Stats where
  ActionNumC : ℤ
  ActionNumR : ℤ
deriving DecidableEq

/-- The function `calculate_statistics` (qbyte_utils.py lines 44–61).  For a negative
`NEDspeed`, Python evaluates `(8*NEDspeed*0.25)**0.5` to a complex number
and `math.ceil` then raises `TypeError`; this failure is `none`. -/
noncomputable def calculate_statistics (p : StatParams) : Option Stats :=
  let ColorZ := p.ColorZ.getD 1.65
  let RotZ := p.RotZ.getD 1.85
  let NEDspeed := p.NEDspeed.getD 250
  if NEDspeed < 0 then none
  else some ⟨actionNum ColorZ (NEDspeed : ℝ), actionNum RotZ (NEDspeed : ℝ)⟩

theorem sqrt500_sq : Real.sqrt 500 ^ 2 = 500 := Real.sq_sqrt (by norm_num)

theorem actionNum_color_default : actionNum 1.65 250 = 1037 := by
  unfold actionNum
  rw [show ((8 : ℝ) * 250 * 0.25) = 500 by norm_num]
  rw [Int.ceil_eq_iff]
  have h1 := sqrt500_sq
  have h2 := Real.sqrt_nonneg (500 : ℝ)
  constructor
  · push_cast
    nlinarith [h1, h2]
  · push_cast
    nlinarith [h1, h2]

theorem actionNum_rot_default : actionNum 1.85 250 = 1042 := by
  unfold actionNum
  rw [show ((8 : ℝ) * 250 * 0.25) = 500 by norm_num]
  rw [Int.ceil_eq_iff]
  have h1 := sqrt500_sq
  have h2 := Real.sqrt_nonneg (500 : ℝ)
  constructor
  · push_cast
    nlinarith [h1, h2]
  · push_cast
    nlinarith [h1, h2]

/-- C1: `computeThresholds` implements the action boundary as
`ceil(z * sigma + expected)` with `expected = 4*sampleWidth` and
`sigma = sqrt(8*sampleWidth*0.25)`, for both the color and rotation z
parameters; in particular, for every run with `sampleWidth = 250` and
`colorZ = 1.65` the color action boundary equals 1037. -/
theorem thresholds_formula :
    (∀ (cz rz : ℝ) (w : ℕ),
        calculate_statistics ⟨some cz, some rz, some (w : ℤ)⟩ =
          some ⟨⌈cz * Real.sqrt (8 * (w : ℝ) * 0.25) + 4 * (w : ℝ)⌉,
                ⌈rz * Real.sqrt (8 * (w : ℝ) * 0.25) + 4 * (w : ℝ)⌉⟩)
      ∧ calculate_statistics ⟨some 1.65, some 1.85, some 250⟩ = some ⟨1037, 1042⟩ := by
  constructor
  · intro cz rz w
    simp [calculate_statistics, actionNum, Int.not_lt.mpr (Int.natCast_nonneg w)]
  · norm_num [calculate_statistics]
    exact ⟨by rw [show ((33 : ℝ) / 20) = 1.65 by norm_num]; exact actionNum_color_default,
           by rw [show ((37 : ℝ) / 20) = 1.85 by norm_num]; exact actionNum_rot_default⟩

/-- C10: for every parameters mapping given to the statistics calculation,
any missing field is silently replaced by a built-in default —
`sampleWidth` (NEDspeed) by 250, `colorZ` by 1.65, `rotZ` by 1.85 — and
thresholds are computed from those substitutes rather than the call
failing; a log whose width cannot be inferred is analyzed as if its width
were 250. -/
theorem missing_params_defaulted :
    (∀ p : StatParams,
        calculate_statistics p =
          calculate_statistics
            ⟨some (p.ColorZ.getD 1.65), some (p.RotZ.getD 1.85), some (p.NEDspeed.getD 250)⟩)
      ∧ (∀ cz rz, calculate_statistics ⟨cz, rz, none⟩ = calculate_statistics ⟨cz, rz, some 250⟩)
      ∧ calculate_statistics ⟨none, none, none⟩ = some ⟨1037, 1042⟩ := by
  refine ⟨fun p => rfl, fun cz rz => rfl, ?_⟩
  norm_num [calculate_statistics]
  exact ⟨by rw [show ((33 : ℝ) / 20) = 1.65 by norm_num]; exact actionNum_color_default,
         by rw [show ((37 : ℝ) / 20) = 1.85 by norm_num]; exact actionNum_rot_default⟩

/-- C8 counterexample: `sampleWidth = 0` is **not** rejected — the
threshold computation accepts it and produces boundaries `0`, so the
claim "for every input with sampleWidth ≤ 0 the threshold computation
fails rather than producing a result" is false at `sampleWidth = 0`. -/
theorem width_zero_accepted :
    calculate_statistics ⟨some 1.65, some 1.85, some 0⟩ = some ⟨0, 0⟩
      ∧ calculate_statistics ⟨some 1.65, some 1.85, some 0⟩ ≠ none := by
  have h : calculate_statistics ⟨some 1.65, some 1.85, some 0⟩ = some ⟨0, 0⟩ := by
    norm_num [calculate_statistics, actionNum]
  exact ⟨h, by rw [h]; simp⟩

/-- C8 amended: the code performs no `sampleWidth` validation and raises
no configuration error: `sampleWidth = 0` is accepted by the threshold
computation (boundaries 0); a negative `sampleWidth` fails only with a
type error (square root of a negative number is complex, `math.ceil`
then raises), not a configuration error, and run setup hardcodes
`sampleWidth = 250`; `z ≤ 0` is accepted, producing a boundary at the
mean. -/
theorem width_validation_amended :
    (∀ w : ℤ, w < 0 → calculate_statistics ⟨some 1.65, some 1.85, some w⟩ = none)
      ∧ calculate_statistics ⟨some 1.65, some 1.85, some 0⟩ = some ⟨0, 0⟩
      ∧ calculate_statistics ⟨some 0, some 0, some 250⟩ = some ⟨1000, 1000⟩ := by
  refine ⟨fun w hw => ?_, ?_, ?_⟩
  · simp [calculate_statistics, hw]
  · norm_num [calculate_statistics, actionNum]
  · norm_num [calculate_statistics, actionNum]

/-- Witness for the amended C8 theorem at `sampleWidth = -1`. -/
theorem width_validation_amended_witness :
    calculate_statistics ⟨some 1.65, some 1.85, some (-1)⟩ = none :=
  width_validation_amended.1 (-1) (by norm_num)

/-! ## Trial Log Codec: header line
Writer: `QByteHeadless.__init__` (qbyte_headless.py lines 47–48) writes
`f'ColorZ: {ColorZ} RotZ: {RotZ} RNG params: {UseTrueRNG} {HALO} {TurboUse}\n'`.
Reader: `QbyteDataProcessor.parse_file_header` (qbyte_utils.py lines 16–34)
splits the header line on spaces and reads indices 1, 3, 5, 6, 7.

The header is modelled at the level of its space-separated tokens (none of
the rendered values contains a space).  A token is either a literal label,
a rendered float (Python `float(str(x)) == x`), or a rendered bool
(`str(True) == 'True'`). -/

/-- One space-separated token of the header line. -/
inductive Token where
  | lit (s : String)
  | num (x : ℝ)
  | boolTok (b : Bool)

/-- Python `token == 'True'`: a rendered bool compares by its value, the
label `'params:'` and rendered floats never equal `'True'`. -/
def Token.isTrueTok : Token → Bool
  | .lit s => s == "True"
  | .num _ => false
  | .boolTok b => b

/-- Python `float(token)`: succeeds exactly on a rendered float (the
labels and rendered bools raise `ValueError`). -/
def floatOfToken : Token → Option ℝ
  | .num x => some x
  | _ => none

/-- The `RunParameters` held by the writer (`QByteHeadless` fields). -/
structure RunParameters where
  colorZ : ℝ
  rotZ : ℝ
  useTrueRNG : Bool
  haloEnabled : Bool
  turboEnabled : Bool

/-- The params dict built by `parse_file_header` from the header line:
`ColorZ`/`RotZ` are always present (defaulted when the header is short),
the three boolean keys are only present when the header is long enough. -/
structure HeaderParams where
  ColorZ : ℝ
  RotZ : ℝ
  UseTrueRNG : Option Bool
  HALO : Option Bool
  TurboUse : Option Bool

/-- The token list of the header line written by `QByteHeadless.__init__`:
`'ColorZ: {colorZ} RotZ: {rotZ} RNG params: {useTrueRNG} {haloEnabled} {turboEnabled}'`
splits on spaces into these nine tokens. -/
def encodeHeaderTokens (p : RunParameters) : List Token :=
  [.lit "ColorZ:", .num p.colorZ, .lit "RotZ:", .num p.rotZ,
   .lit "RNG", .lit "params:",
   .boolTok p.useTrueRNG, .boolTok p.haloEnabled, .boolTok p.turboEnabled]

/-- The header-parsing part of `parse_file_header` (qbyte_utils.py lines
22–34): `float(header[1])` / `float(header[3])` with defaults 1.65 / 1.85
when the header is short, then `header[5] == 'True'` for `UseTrueRNG`
(when more than 5 tokens), `header[6] == 'True'` for `HALO` (more than 6),
`header[7] == 'True'` for `TurboUse` (more than 7).  A failing `float`
conversion raises, giving `none`. -/
def parseHeaderTokens (h : List Token) : Option HeaderParams := do
  let cz ← match h.get? 1 with
    | some t => floatOfToken t
    | none => some 1.65
  let rz ← match h.get? 3 with
    | some t => floatOfToken t
    | none => some 1.85
  pure ⟨cz, rz, (h.get? 5).map Token.isTrueTok, (h.get? 6).map Token.isTrueTok,
        (h.get? 7).map Token.isTrueTok⟩

/-- C4 (code bug): the writer places the three booleans at token indices
6, 7, 8 (the label `RNG params:` occupies indices 4 and 5), but the
parser reads indices 5, 6, 7.  Encoding the header for
`useTrueRNG = true, haloEnabled = true, turboEnabled = false` and decoding
it yields `UseTrueRNG = false` (parsed from the literal `params:`),
`HALO = true` (the written `useTrueRNG`), `TurboUse = true` (the written
`haloEnabled`) — the round trip loses every boolean; and decoding an empty
header leaves the three boolean keys absent instead of defaulted. -/
theorem header_roundtrip_at_failing_input :
    parseHeaderTokens (encodeHeaderTokens ⟨1.65, 1.85, true, true, false⟩) =
        some ⟨1.65, 1.85, some false, some true, some true⟩
      ∧ (⟨1.65, 1.85, true, true, false⟩ : RunParameters).useTrueRNG ≠ false
      ∧ parseHeaderTokens [] = some ⟨1.65, 1.85, none, none, none⟩ := by
  refine ⟨rfl, by simp, rfl⟩

/-! ## Generation Engine
(`QByteHeadless.generate_bulk_data`, qbyte_headless.py lines 65–118; the
per-trial logic of `generate_continuous_data`, lines 120–194, is
identical.)  The random sampler and the clock are modelled as an input
list of (sampled byte values, timestamp) pairs, one per iteration. -/

/-- Bit contribution of one sampled value: Python computes
`bin(256 + val)[3:]` — the binary digits of `256 + val` without the `0b`
tag and without the leading (always `1`) digit — and sums the digits.
That sum is the sum of all base-2 digits of `256 + val` minus 1. -/
def lineBitCount (val : ℕ) : ℕ := (Nat.digits 2 (256 + val)).sum - 1

/-- The per-trial `bit_sum` accumulated over the sampled values. -/
def bit_sum (values : List ℕ) : ℕ := (values.map lineBitCount).sum

/-- The trial record line
`f"QBYTE,{','.join(map(str, values))},{timestamp},{'T' if TurboUse else 'F'}"`
(qbyte_headless.py line 83). -/
def qbyteLine (values : List ℕ) (ts : ℕ) (turbo : Bool) : List Char :=
  'Q' :: 'B' :: 'Y' :: 'T' :: 'E' :: ',' ::
    (joinComma (values.map natChars) ++ [','] ++ natChars ts ++ [','] ++
      [if turbo then 'T' else 'F'])

/-- The event line `f"color,{timestamp}"` (qbyte_headless.py line 99). -/
def colorLine (ts : ℕ) : List Char :=
  'c' :: 'o' :: 'l' :: 'o' :: 'r' :: ',' :: natChars ts

/-- The event line `f"rotation,{timestamp}"` (qbyte_headless.py line 105). -/
def rotationLine (ts : ℕ) : List Char :=
  'r' :: 'o' :: 't' :: 'a' :: 't' :: 'i' :: 'o' :: 'n' :: ',' :: natChars ts

/-- The header line written by `QByteHeadless.__init__` with the default
parameters it hardcodes (qbyte_headless.py lines 25–30, 48):
`ColorZ: 1.65 RotZ: 1.85 RNG params: False True False`. -/
def headerLine : List Char :=
  ['C', 'o', 'l', 'o', 'r', 'Z', ':', ' ', '1', '.', '6', '5', ' ',
   'R', 'o', 't', 'Z', ':', ' ', '1', '.', '8', '5', ' ',
   'R', 'N', 'G', ' ', 'p', 'a', 'r', 'a', 'm', 's', ':', ' ',
   'F', 'a', 'l', 's', 'e', ' ', 'T', 'r', 'u', 'e', ' ',
   'F', 'a', 'l', 's', 'e']

/-- Lines appended to the log for one iteration: the trial line, then a
color event line when `bit_sum > ActionNumC`, then a rotation event line
when `bit_sum > ActionNumR` (qbyte_headless.py lines 83–107). -/
def trialLines (C R : ℤ) (turbo : Bool) (vs : List ℕ) (ts : ℕ) : List (List Char) :=
  qbyteLine vs ts turbo ::
    ((if C < (bit_sum vs : ℤ) then [colorLine ts] else []) ++
     (if R < (bit_sum vs : ℤ) then [rotationLine ts] else []))

/-- All lines appended by `generate_bulk_data` over a run. -/
def bulk_lines (C R : ℤ) (turbo : Bool) : List (List ℕ × ℕ) → List (List Char)
  | [] => []
  | (vs, ts) :: rest => trialLines C R turbo vs ts ++ bulk_lines C R turbo rest

/-- The `events['color_events']` counter accumulated live during
generation (qbyte_headless.py lines 97–98). -/
def live_color (C : ℤ) : List (List ℕ × ℕ) → ℕ
  | [] => 0
  | (vs, _) :: rest => (if C < (bit_sum vs : ℤ) then 1 else 0) + live_color C rest

/-- The `events['rotation_events']` counter accumulated live during
generation (qbyte_headless.py lines 103–104). -/
def live_rotation (R : ℤ) : List (List ℕ × ℕ) → ℕ
  | [] => 0
  | (vs, _) :: rest => (if R < (bit_sum vs : ℤ) then 1 else 0) + live_rotation R rest

/-- The line list obtained by reading the finished log file back and
splitting on newlines: the header, the generated lines, and the empty
piece after the final newline. -/
def run_file_lines (C R : ℤ) (turbo : Bool) (trials : List (List ℕ × ℕ)) :
    List (List Char) :=
  headerLine :: (bulk_lines C R turbo trials ++ [[]])

/-- C6: an event of a given kind is raised iff the trial's `bit_sum` is
strictly greater than that kind's action boundary — a trial whose
`bit_sum` equals the boundary exactly raises no event, one whose exceeds
it does. -/
theorem event_iff_exceeds (C R : ℤ) (turbo : Bool) (vs : List ℕ) (ts : ℕ) :
    (colorLine ts ∈ trialLines C R turbo vs ts ↔ C < (bit_sum vs : ℤ))
      ∧ (rotationLine ts ∈ trialLines C R turbo vs ts ↔ R < (bit_sum vs : ℤ)) := by
  have hcq : colorLine ts ≠ qbyteLine vs ts turbo := by
    intro hEq
    exact absurd ((List.cons_eq_cons.mp hEq).1) (by decide)
  have hrq : rotationLine ts ≠ qbyteLine vs ts turbo := by
    intro hEq
    exact absurd ((List.cons_eq_cons.mp hEq).1) (by decide)
  have hcr : colorLine ts ≠ rotationLine ts := by
    intro hEq
    exact absurd ((List.cons_eq_cons.mp hEq).1) (by decide)
  have hrc : rotationLine ts ≠ colorLine ts := hcr.symm
  unfold trialLines
  constructor
  · simp only [List.mem_cons, List.mem_append]
    split_ifs with h1 h2 <;> simp_all
  · simp only [List.mem_cons, List.mem_append]
    split_ifs with h1 h2 <;> simp_all

/-! ## Trial Log Codec: trial-line width inference
(`parse_file_header`, qbyte_utils.py lines 36–41: the decoder infers
`NEDspeed` as `len(lines[1].split(',')) - 2`.) -/

/-- The decoder's inferred sample width: comma-field count of a trial
line minus 2. -/
def inferredWidth (line : List Char) : ℤ := ((pySplit ',' line).length : ℤ) - 2

theorem pySplit_of_not_mem {sep : Char} {a : List Char} (h : sep ∉ a) :
    pySplit sep a = [a] := by
  induction a with
  | nil => rfl
  | cons c cs ih =>
    have hc : c ≠ sep := fun hEq => h (hEq ▸ List.mem_cons_self _ _)
    have hcs : sep ∉ cs := fun hm => h (List.mem_cons_of_mem _ hm)
    simp only [pySplit, if_neg hc, ih hcs]

theorem pySplit_append {sep : Char} {a rest : List Char} (h : sep ∉ a) :
    pySplit sep (a ++ sep :: rest) = a :: pySplit sep rest := by
  induction a with
  | nil => simp [pySplit]
  | cons c cs ih =>
    have hc : c ≠ sep := fun hEq => h (hEq ▸ List.mem_cons_self _ _)
    have hcs : sep ∉ cs := fun hm => h (List.mem_cons_of_mem _ hm)
    have hrec := ih hcs
    simp only [List.cons_append, pySplit, if_neg hc, List.append_eq, hrec]

theorem pySplit_ne_nil {sep : Char} (s : List Char) : pySplit sep s ≠ [] := by
  induction s with
  | nil => simp [pySplit]
  | cons c cs ih =>
    by_cases hc : c = sep
    · simp [pySplit, hc]
    · simp only [pySplit, if_neg hc]
      cases hs : pySplit sep cs with
      | nil => exact absurd hs ih
      | cons w ws => simp

theorem pySplit_joinComma {xs : List (List Char)} {rest : List Char}
    (hxs : ∀ x ∈ xs, ',' ∉ x) (hne : xs ≠ []) :
    pySplit ',' (joinComma xs ++ ',' :: rest) = xs ++ pySplit ',' rest := by
  induction xs with
  | nil => exact absurd rfl hne
  | cons x xs ih =>
    cases xs with
    | nil =>
      simp only [joinComma]
      rw [pySplit_append (hxs x (List.mem_cons_self _ _))]
      simp
    | cons y ys =>
      have hx : ',' ∉ x := hxs x (List.mem_cons_self _ _)
      have : joinComma (x :: y :: ys) ++ ',' :: rest =
          x ++ ',' :: (joinComma (y :: ys) ++ ',' :: rest) := by
        simp [joinComma]
      rw [this, pySplit_append hx,
        ih (fun z hz => hxs z (List.mem_cons_of_mem _ hz)) (by simp)]
      simp

theorem comma_not_mem_natChars (n : ℕ) : ',' ∉ natChars n := by
  intro h
  exact absurd (mem_natChars h) (by decide)

/-- Splitting a written trial line on commas yields the record tag, one
field per sampled value, the timestamp and the turbo flag. -/
theorem qbyteLine_split (vs : List ℕ) (ts : ℕ) (turbo : Bool) (h : vs ≠ []) :
    pySplit ',' (qbyteLine vs ts turbo) =
      ['Q', 'B', 'Y', 'T', 'E'] :: vs.map natChars ++
        [natChars ts, [if turbo then 'T' else 'F']] := by
  have htag : (',' : Char) ∉ ['Q', 'B', 'Y', 'T', 'E'] := by decide
  have hline : qbyteLine vs ts turbo =
      ['Q', 'B', 'Y', 'T', 'E'] ++ ',' ::
        (joinComma (vs.map natChars) ++ ',' :: (natChars ts ++ ',' ::
          [if turbo then 'T' else 'F'])) := by
    simp [qbyteLine]
  rw [hline, pySplit_append htag,
    pySplit_joinComma (fun x hx => by
      obtain ⟨v, _, rfl⟩ := List.mem_map.mp hx
      exact comma_not_mem_natChars v) (by simpa using h),
    pySplit_append (comma_not_mem_natChars ts),
    pySplit_of_not_mem (by cases turbo <;> decide)]
  simp

/-- C5 (code bug): the decoder's inferred sample width — field count of
the first trial line minus 2 — equals the writer's `sampleWidth` **plus
one**, because the comma-separated fields are the record tag, the
`sampleWidth` values, the timestamp and the flag (`sampleWidth + 3`
fields in total), and the decoder subtracts only 2, counting the record
tag as a sampled value. -/
theorem inferred_width_plus_one (vs : List ℕ) (ts : ℕ) (turbo : Bool)
    (h : vs ≠ []) :
    inferredWidth (qbyteLine vs ts turbo) = (vs.length : ℤ) + 1 := by
  unfold inferredWidth
  rw [qbyteLine_split vs ts turbo h]
  simp
  omega

/-- Witness: a width-1 trial line `QBYTE,7,123,F` is decoded as width 2. -/
theorem inferred_width_plus_one_witness :
    inferredWidth (qbyteLine [7] 123 false) = 2 := by
  have := inferred_width_plus_one [7] 123 false (by simp)
  simpa using this

/-! ## Analysis Engine: event counting
(`QbyteDataProcessor.count_events`, qbyte_utils.py lines 93–104: counts
the lines containing the substrings `'color'`, `'rotation'` and
`'QBYTE'`.) -/

/-- The counts returned by `count_events`. -/
structure EventCounts where
  color_events : ℕ
  rotation_events : ℕ
  qbyte_lines : ℕ
  total_lines : ℕ

/-- The substring patterns scanned by `count_events`. -/
def colorPat : List Char := ['c', 'o', 'l', 'o', 'r']

def rotationPat : List Char := ['r', 'o', 't', 'a', 't', 'i', 'o', 'n']

def qbytePat : List Char := ['Q', 'B', 'Y', 'T', 'E']

/-- The function `count_events` (qbyte_utils.py lines 93–104). -/
def count_events (lines : List (List Char)) : EventCounts :=
  ⟨lines.countP (fun l => pyIn colorPat l),
   lines.countP (fun l => pyIn rotationPat l),
   lines.countP (fun l => pyIn qbytePat l),
   lines.length⟩

/-- Every character that can occur in a written trial line. -/
def qbyteAlphabet : List Char := ['Q', 'B', 'Y', 'T', 'E', ',', 'F'] ++ digitChars

/-- Every character that can occur in a written color event line. -/
def colorAlphabet : List Char := ['c', 'o', 'l', 'r', ','] ++ digitChars

/-- Every character that can occur in a written rotation event line. -/
def rotationAlphabet : List Char := ['r', 'o', 't', 'a', 'i', 'n', ','] ++ digitChars

theorem mem_joinComma {c : Char} {xs : List (List Char)} (h : c ∈ joinComma xs) :
    c = ',' ∨ ∃ x ∈ xs, c ∈ x := by
  induction xs with
  | nil => simp [joinComma] at h
  | cons x xs ih =>
    cases xs with
    | nil =>
      simp only [joinComma] at h
      exact Or.inr ⟨x, by simp, h⟩
    | cons y ys =>
      simp only [joinComma, List.mem_append, List.mem_cons] at h
      rcases h with h | h | h
      · exact Or.inr ⟨x, by simp, h⟩
      · exact Or.inl h
      · rcases ih h with h' | ⟨z, hz, hc⟩
        · exact Or.inl h'
        · exact Or.inr ⟨z, List.mem_cons_of_mem _ hz, hc⟩

theorem mem_qbyteLine {c : Char} {vs : List ℕ} {ts : ℕ} {turbo : Bool}
    (h : c ∈ qbyteLine vs ts turbo) : c ∈ qbyteAlphabet := by
  have hdig : ∀ {m : ℕ}, c ∈ natChars m → c ∈ qbyteAlphabet := by
    intro m hm
    have := mem_natChars hm
    simp only [qbyteAlphabet, List.mem_append]
    exact Or.inr this
  simp only [qbyteLine, List.mem_cons, List.mem_append, List.not_mem_nil, or_false,
    List.mem_singleton] at h
  rcases h with rfl | rfl | rfl | rfl | rfl | rfl | (((h | rfl) | h) | rfl) | rfl
  · decide
  · decide
  · decide
  · decide
  · decide
  · decide
  · rcases mem_joinComma h with rfl | ⟨x, hx, hc⟩
    · decide
    · obtain ⟨v, _, rfl⟩ := List.mem_map.mp hx
      exact hdig hc
  · decide
  · exact hdig h
  · decide
  · cases turbo <;> decide

theorem mem_colorLine {c : Char} {ts : ℕ} (h : c ∈ colorLine ts) :
    c ∈ colorAlphabet := by
  simp only [colorLine, List.mem_cons] at h
  rcases h with rfl | rfl | rfl | rfl | rfl | rfl | h
  · decide
  · decide
  · decide
  · decide
  · decide
  · decide
  · have := mem_natChars h
    simp only [colorAlphabet, List.mem_append]
    exact Or.inr this

theorem mem_rotationLine {c : Char} {ts : ℕ} (h : c ∈ rotationLine ts) :
    c ∈ rotationAlphabet := by
  simp only [rotationLine, List.mem_cons] at h
  rcases h with rfl | rfl | rfl | rfl | rfl | rfl | rfl | rfl | rfl | h
  · decide
  · decide
  · decide
  · decide
  · decide
  · decide
  · decide
  · decide
  · decide
  · have := mem_natChars h
    simp only [rotationAlphabet, List.mem_append]
    exact Or.inr this

theorem pyIn_color_colorLine (ts : ℕ) : pyIn colorPat (colorLine ts) = true :=
  pyIn_of_leadMatch (by simp [colorPat, colorLine, leadMatch])

theorem pyIn_rotation_rotationLine (ts : ℕ) :
    pyIn rotationPat (rotationLine ts) = true :=
  pyIn_of_leadMatch (by simp [rotationPat, rotationLine, leadMatch])

theorem pyIn_qbyte_qbyteLine (vs : List ℕ) (ts : ℕ) (turbo : Bool) :
    pyIn qbytePat (qbyteLine vs ts turbo) = true :=
  pyIn_of_leadMatch (by simp [qbytePat, qbyteLine, leadMatch])

theorem pyIn_color_qbyteLine (vs : List ℕ) (ts : ℕ) (turbo : Bool) :
    pyIn colorPat (qbyteLine vs ts turbo) = false :=
  pyIn_eq_false (c := 'c') (by decide)
    (fun hm => absurd (mem_qbyteLine hm) (by decide))

theorem pyIn_color_rotationLine (ts : ℕ) : pyIn colorPat (rotationLine ts) = false :=
  pyIn_eq_false (c := 'c') (by decide)
    (fun hm => absurd (mem_rotationLine hm) (by decide))

theorem pyIn_rotation_qbyteLine (vs : List ℕ) (ts : ℕ) (turbo : Bool) :
    pyIn rotationPat (qbyteLine vs ts turbo) = false :=
  pyIn_eq_false (c := 'a') (by decide)
    (fun hm => absurd (mem_qbyteLine hm) (by decide))

theorem pyIn_rotation_colorLine (ts : ℕ) :
    pyIn rotationPat (colorLine ts) = false :=
  pyIn_eq_false (c := 'a') (by decide)
    (fun hm => absurd (mem_colorLine hm) (by decide))

theorem pyIn_qbyte_colorLine (ts : ℕ) : pyIn qbytePat (colorLine ts) = false :=
  pyIn_eq_false (c := 'Q') (by decide)
    (fun hm => absurd (mem_colorLine hm) (by decide))

theorem pyIn_qbyte_rotationLine (ts : ℕ) :
    pyIn qbytePat (rotationLine ts) = false :=
  pyIn_eq_false (c := 'Q') (by decide)
    (fun hm => absurd (mem_rotationLine hm) (by decide))

theorem countP_color_trial (C R : ℤ) (turbo : Bool) (vs : List ℕ) (ts : ℕ) :
    (trialLines C R turbo vs ts).countP (fun l => pyIn colorPat l) =
      if C < (bit_sum vs : ℤ) then 1 else 0 := by
  unfold trialLines
  split_ifs with h1 h2 <;>
    simp [List.countP_cons, List.countP_append, pyIn_color_qbyteLine,
      pyIn_color_colorLine, pyIn_color_rotationLine, *]

theorem countP_rotation_trial (C R : ℤ) (turbo : Bool) (vs : List ℕ) (ts : ℕ) :
    (trialLines C R turbo vs ts).countP (fun l => pyIn rotationPat l) =
      if R < (bit_sum vs : ℤ) then 1 else 0 := by
  unfold trialLines
  split_ifs with h1 h2 <;>
    simp [List.countP_cons, List.countP_append, pyIn_rotation_qbyteLine,
      pyIn_rotation_rotationLine, pyIn_rotation_colorLine, *]

theorem countP_qbyte_trial (C R : ℤ) (turbo : Bool) (vs : List ℕ) (ts : ℕ) :
    (trialLines C R turbo vs ts).countP (fun l => pyIn qbytePat l) = 1 := by
  unfold trialLines
  split_ifs with h1 h2 <;>
    simp [List.countP_cons, List.countP_append, pyIn_qbyte_qbyteLine,
      pyIn_qbyte_colorLine, pyIn_qbyte_rotationLine, *]

theorem countP_bulk_color (C R : ℤ) (turbo : Bool) (trials : List (List ℕ × ℕ)) :
    (bulk_lines C R turbo trials).countP (fun l => pyIn colorPat l) =
      live_color C trials := by
  induction trials with
  | nil => simp [bulk_lines, live_color]
  | cons t ts ih =>
    obtain ⟨vs, tstamp⟩ := t
    simp [bulk_lines, live_color, List.countP_append, countP_color_trial, ih]

theorem countP_bulk_rotation (C R : ℤ) (turbo : Bool) (trials : List (List ℕ × ℕ)) :
    (bulk_lines C R turbo trials).countP (fun l => pyIn rotationPat l) =
      live_rotation R trials := by
  induction trials with
  | nil => simp [bulk_lines, live_rotation]
  | cons t ts ih =>
    obtain ⟨vs, tstamp⟩ := t
    simp [bulk_lines, live_rotation, List.countP_append, countP_rotation_trial, ih]

theorem countP_bulk_qbyte (C R : ℤ) (turbo : Bool) (trials : List (List ℕ × ℕ)) :
    (bulk_lines C R turbo trials).countP (fun l => pyIn qbytePat l) =
      trials.length := by
  induction trials with
  | nil => simp [bulk_lines]
  | cons t ts ih =>
    obtain ⟨vs, tstamp⟩ := t
    simp [bulk_lines, List.countP_append, countP_qbyte_trial, ih]
    omega

/-- C7: analysing the log file written by a bounded run of `n` trials
reports exactly `n` trials (`qbyte_lines`), and color / rotation event
counts equal to the counters accumulated live during generation. -/
theorem analysis_counts_match (C R : ℤ) (turbo : Bool)
    (trials : List (List ℕ × ℕ)) :
    (count_events (run_file_lines C R turbo trials)).qbyte_lines = trials.length
      ∧ (count_events (run_file_lines C R turbo trials)).color_events =
          live_color C trials
      ∧ (count_events (run_file_lines C R turbo trials)).rotation_events =
          live_rotation R trials := by
  have hch : pyIn colorPat headerLine = false := by decide
  have hrh : pyIn rotationPat headerLine = false := by decide
  have hqh : pyIn qbytePat headerLine = false := by decide
  have hce : pyIn colorPat [] = false := by decide
  have hre : pyIn rotationPat [] = false := by decide
  have hqe : pyIn qbytePat [] = false := by decide
  unfold count_events run_file_lines
  refine ⟨?_, ?_, ?_⟩ <;>
    simp [List.countP_cons, List.countP_append, hch, hrh, hqh, hce, hre, hqe,
      countP_bulk_color, countP_bulk_rotation, countP_bulk_qbyte]

/-! ## Analysis Engine: cumulative deviation and confidence envelope
(`QByteHeadless.get_results`, qbyte_headless.py lines 199–205; the same
formulas in `QbyteDataProcessor.generate_visualization`, qbyte_utils.py
lines 127–135.)  Numpy's `cumsum(b)[i]` is the sum of `b[0..i]` and
`arange(n)[i] = i`. -/

/-- The code's deviation sequence: `cumsum(bit_sums) - arange(n) * 4`,
i.e. element `i` is `(b[0]+...+b[i]) - 4*i`. -/
def cumulative_deviation (bitSums : List ℤ) : List ℤ :=
  (List.range bitSums.length).map fun i : ℕ => (bitSums.take (i + 1)).sum - 4 * (i : ℤ)

/-- Modelled from the spec: `cumulativeDeviation[i] =
(sum of bitSum[0..i]) − 4·sampleWidth·(i+1)`, for comparison with the
code's sequence. -/
def spec_cumulative_deviation (w : ℤ) (bitSums : List ℤ) : List ℤ :=
  (List.range bitSums.length).map fun i : ℕ =>
    (bitSums.take (i + 1)).sum - 4 * w * ((i : ℤ) + 1)

/-- C2 (code bug): the code's cumulative deviation is
`cumsum[i] - 4*i` — the per-trial expectation `4*sampleWidth` of the
claim (and of the code's own inline comment, which assumes expected
probability 0.5) is replaced by the constant 4, and the index is off by
one.  At the failing input `bitSums = [4]`, `sampleWidth = 1`, the code
yields `[4]` while the claimed formula yields `[0]`. -/
theorem cumulative_deviation_at_failing_input :
    cumulative_deviation [4] = [4]
      ∧ spec_cumulative_deviation 1 [4] = [0]
      ∧ cumulative_deviation [4] ≠ spec_cumulative_deviation 1 [4] := by
  refine ⟨by decide, by decide, by decide⟩

/-- The code's envelope sequence:
`sqrt(arange(n) * 4 * 0.25) * 1.96`, i.e. element `i` is
`sqrt(i * 4 * 0.25) * 1.96` (qbyte_headless.py line 205). -/
noncomputable def std_dev_line (n : ℕ) : List ℝ :=
  (List.range n).map fun i : ℕ => Real.sqrt ((i : ℝ) * 4 * 0.25) * 1.96

/-- Modelled from the spec: `envelope[i] = 1.96 · sqrt(4·sampleWidth·0.25·(i+1))`,
for comparison with the code's sequence. -/
noncomputable def spec_envelope (w : ℝ) (n : ℕ) : List ℝ :=
  (List.range n).map fun i : ℕ => 1.96 * Real.sqrt (4 * w * 0.25 * ((i : ℝ) + 1))

/-- C3 counterexample: for one trial with `sampleWidth = 1` the code's
envelope is `[0]` while the claimed formula gives `[1.96]`. -/
theorem envelope_counterexample :
    std_dev_line 1 = [0]
      ∧ spec_envelope 1 1 = [1.96]
      ∧ std_dev_line 1 ≠ spec_envelope 1 1 := by
  have h1 : std_dev_line 1 = [0] := by
    unfold std_dev_line
    rw [show List.range 1 = [0] from rfl]
    simp
  have h2 : spec_envelope 1 1 = [1.96] := by
    unfold spec_envelope
    rw [show List.range 1 = [0] from rfl]
    norm_num [Real.sqrt_one]
  refine ⟨h1, h2, ?_⟩
  rw [h1, h2]
  intro hEq
  have h0 : (0 : ℝ) = 1.96 := by
    have := congrArg (fun l : List ℝ => l.headD 0) hEq
    simpa using this
  norm_num at h0

/-- C3 amended: the envelope the code computes is
`1.96 · sqrt(4·0.25·i) = 1.96·sqrt(i)` — it does not involve
`sampleWidth` at all and uses index `i` rather than `i+1`. -/
theorem envelope_amended (n i : ℕ) (h : i < (std_dev_line n).length) :
    (std_dev_line n).get ⟨i, h⟩ = 1.96 * Real.sqrt (i : ℝ) := by
  simp only [std_dev_line, List.get_eq_getElem, List.getElem_map, List.getElem_range]
  rw [show ((i : ℝ) * 4 * 0.25) = (i : ℝ) by ring]
  ring

/-- Witness for the amended C3 theorem at `n = 2`, `i = 1`. -/
theorem envelope_amended_witness :
    (std_dev_line 2).get ⟨1, by simp [std_dev_line]⟩ = 1.96 * Real.sqrt ((1 : ℕ) : ℝ) :=
  envelope_amended 2 1 (by simp [std_dev_line])

/-! ## Analysis pipeline on raw file contents
(the `/api/stats` flow, app.py lines 88–92: `parse_file_header` then
`calculate_statistics`).  The file content is a `List Char`; Python's
`f.read().split('\n')` is `pySplit '\n'`. -/

/-- Numeric value of a digit character. -/
def digitVal (c : Char) : Option ℕ :=
  if 48 ≤ c.toNat ∧ c.toNat ≤ 57 then some (c.toNat - 48) else none

def digitsAux : List Char → Option ℕ
  | [] => some 0
  | c :: cs => do
      let d ← digitVal c
      let r ← digitsAux cs
      pure (d * 10 ^ cs.length + r)

/-- Decimal value of a non-empty all-digit string (`none` = `ValueError`). -/
def digitsVal (s : List Char) : Option ℕ := if s = [] then none else digitsAux s

/-- Python `float(s)`, modelled for the unsigned plain decimal literals
(`'1.65'`, `'1.85'`, …) that this system's header writer produces; any
other string fails (`ValueError`), which is all the claims need. -/
def pyFloat (s : List Char) : Option ℚ :=
  match pySplit '.' s with
  | [i] => (digitsVal i).map fun n => (n : ℚ)
  | [i, f] => do
      let a ← digitsVal i
      let b ← digitsVal f
      pure ((a : ℚ) + (b : ℚ) / 10 ^ f.length)
  | _ => none

/-- The `ColorZ` entry built by `parse_file_header` (qbyte_utils.py line
24): `float(header[1])` when the space-split header has more than one
token, else the default 1.65. -/
def fileColorZ (content : List Char) : Option ℚ :=
  let lines := pySplit '\n' content
  let header := pySplit ' ' (lines.headD [])
  match header.get? 1 with
  | some t => pyFloat t
  | none => some 1.65

/-- The `RotZ` entry built by `parse_file_header` (qbyte_utils.py line
25): `float(header[3])` when present, else the default 1.85. -/
def fileRotZ (content : List Char) : Option ℚ :=
  let lines := pySplit '\n' content
  let header := pySplit ' ' (lines.headD [])
  match header.get? 3 with
  | some t => pyFloat t
  | none => some 1.85

/-- The `NEDspeed` entry built by `parse_file_header` (qbyte_utils.py
lines 37–39): `len(lines[1].split(',')) - 2` when the file has a second
line, absent otherwise. -/
def fileNEDspeed (content : List Char) : Option ℤ :=
  ((pySplit '\n' content).get? 1).map fun l => ((pySplit ',' l).length : ℤ) - 2

/-- The `/api/stats` analysis pipeline (app.py lines 88–92):
`parse_file_header` on the raw content, then `calculate_statistics` on
the resulting params dict. -/
noncomputable def analyze_stats (content : List Char) : Option Stats := do
  let cz ← fileColorZ content
  let rz ← fileRotZ content
  calculate_statistics ⟨some ((cz : ℝ)), some ((rz : ℝ)), fileNEDspeed content⟩

/-- C9 (code bug): on a header-only log file — exactly what the generator
writes before its first trial: the header line plus its terminating
newline — analysis raises instead of returning a zero-trial summary.
The empty second piece after the final newline makes `parse_file_header`
infer `NEDspeed = len(''.split(',')) - 2 = -1`, and the statistics step
then takes the square root of a negative number (complex in Python) and
`math.ceil` raises `TypeError`.  A completely empty file, by contrast,
does succeed with the defaults. -/
theorem header_only_file_errors :
    analyze_stats (headerLine ++ ['\n']) = none
      ∧ (analyze_stats []).isSome = true := by
  have hp1 : pyFloat ['1', '.', '6', '5'] = some (33 / 20) := by
    have hs : pySplit '.' ['1', '.', '6', '5'] = [['1'], ['6', '5']] := by decide
    have hd1 : digitsVal ['1'] = some 1 := by decide
    have hd2 : digitsVal ['6', '5'] = some 65 := by decide
    simp only [pyFloat, hs, hd1, hd2, Option.bind_some]
    norm_num
  have hp2 : pyFloat ['1', '.', '8', '5'] = some (37 / 20) := by
    have hs : pySplit '.' ['1', '.', '8', '5'] = [['1'], ['8', '5']] := by decide
    have hd1 : digitsVal ['1'] = some 1 := by decide
    have hd2 : digitsVal ['8', '5'] = some 85 := by decide
    simp only [pyFloat, hs, hd1, hd2, Option.bind_some]
    norm_num
  have ht1 : (pySplit ' ' ((pySplit '\n' (headerLine ++ ['\n'])).headD [])).get? 1 =
      some ['1', '.', '6', '5'] := by decide
  have ht3 : (pySplit ' ' ((pySplit '\n' (headerLine ++ ['\n'])).headD [])).get? 3 =
      some ['1', '.', '8', '5'] := by decide
  have h1 : fileColorZ (headerLine ++ ['\n']) = some (33 / 20) := by
    unfold fileColorZ
    simp only [ht1, hp1]
  have h2 : fileRotZ (headerLine ++ ['\n']) = some (37 / 20) := by
    unfold fileRotZ
    simp only [ht3, hp2]
  have h3 : fileNEDspeed (headerLine ++ ['\n']) = some (-1) := by decide
  have he1 : (pySplit ' ' ((pySplit '\n' ([] : List Char)).headD [])).get? 1 =
      none := by decide
  have he3 : (pySplit ' ' ((pySplit '\n' ([] : List Char)).headD [])).get? 3 =
      none := by decide
  have h4 : fileColorZ [] = some 1.65 := by
    unfold fileColorZ
    simp only [he1]
  have h5 : fileRotZ [] = some 1.85 := by
    unfold fileRotZ
    simp only [he3]
  have h6 : fileNEDspeed [] = none := by decide
  constructor
  · norm_num [analyze_stats, h1, h2, h3, calculate_statistics]
  · norm_num [analyze_stats, h4, h5, h6, calculate_statistics]

end QbyteApi
